import Mathlib

/-!
Shallow embedding of the Azure OpenAI provider dispatcher from
crates/goose/src/providers/azure.rs: the authenticated retrying `post`
loop (lines 86-303), its retry-hint extraction, backoff policy, header
selection and URL construction, together with proofs of the specified
properties of these operations.

Network sends, token fetches and response classification are effects of
the environment; a call to `post` is therefore modelled against an
explicit list of per-attempt environment outcomes (`AttemptEnv`), and the
loop records its observable actions (sends, sleeps) in a trace of
`Event`s.  Machine integers (`u64`, `usize`) are modelled as `Nat`: all
quantities involved (attempt counts up to 6, delays up to 64000 ms,
parsed hints) are far below any overflow boundary, except where noted.
-/

/-- Default retry configuration constant, azure.rs line 25. -/
def DEFAULT_MAX_RETRIES : Nat := 5

/-- Default retry configuration constant, azure.rs line 26 (milliseconds). -/
def DEFAULT_INITIAL_RETRY_INTERVAL_MS : Nat := 1000

/-- Default retry configuration constant, azure.rs line 27 (milliseconds). -/
def DEFAULT_MAX_RETRY_INTERVAL_MS : Nat := 32000

/-- Variants of `super::errors::ProviderError` that azure.rs constructs or
matches on.  All other variants produced by `handle_response_openai_compat`
are passed through `post` untouched; they are collapsed into `OtherError`,
which the loop never constructs nor inspects. -/
inductive ProviderError where
  | RateLimitExceeded (msg : String)
  | RequestFailed (msg : String)
  | OtherError (msg : String)
deriving DecidableEq, Repr

/-- The credential variants of `super::azureauth::AzureCredentials`
matched at azure.rs lines 132-144. -/
inductive AzureCredentials where
  | ApiKey (key : String)
  | DefaultCredential
deriving DecidableEq, Repr

/-- Header selection of azure.rs lines 131-144: the `(name, value)` pair
added to the request builder, chosen by an exhaustive match on the
credential variant. -/
def authHeader (cred : AzureCredentials) (token_value : String) : String × String :=
  match cred with
  | .ApiKey _ => ("api-key", token_value)
  | .DefaultCredential => ("Authorization", "Bearer " ++ token_value)

/- ------------------------------------------------------------------
Retry-hint extraction, azure.rs lines 223-231:

    let retry_after = if let Some(secs) = msg.to_lowercase().find("try again in ") {
        msg[secs..].split_whitespace().nth(3)
            .and_then(|s| s.parse::<u64>().ok()).unwrap_or(0)
    } else { 0 };

Rust strings are UTF-8 byte strings; `find` returns a BYTE index into the
lowercased copy, and `msg[secs..]` slices the ORIGINAL message at that
byte index, panicking if it is not a character boundary there.  To capture
this, strings are modelled as their scalar-value sequences (`List Char`)
with explicit UTF-8 byte accounting.
------------------------------------------------------------------ -/

/-- UTF-8 encoded length of one character, as Rust `char::len_utf8`. -/
def utf8CharLen (c : Char) : Nat :=
  if c.val < 0x80 then 1
  else if c.val < 0x800 then 2
  else if c.val < 0x10000 then 3
  else 4

/-- Character-wise lowercasing performed by Rust `str::to_lowercase`
(full Unicode case mapping, possibly multi-character), modelled on the
fragment of Unicode this development uses: ASCII letters A-Z map to a-z;
U+212A KELVIN SIGN maps to `k` (3 UTF-8 bytes shrink to 1); U+0130 LATIN
CAPITAL LETTER I WITH DOT ABOVE maps to `i` followed by U+0307 (2 bytes
grow to 3).  Every other character is left unchanged, which agrees with
Rust for all characters without a Unicode lowercase mapping (digits,
punctuation, whitespace, already-lowercase letters). -/
def rustCharToLower (c : Char) : List Char :=
  if c.val = 0x212A then [Char.ofNat 0x6B]
  else if c.val = 0x130 then [Char.ofNat 0x69, Char.ofNat 0x307]
  else if 0x41 ≤ c.val ∧ c.val ≤ 0x5A then [Char.ofNat (c.toNat + 32)]
  else [c]

/-- Model of Rust `str::to_lowercase` on scalar-value sequences. -/
def rustToLower (s : List Char) : List Char :=
  s.flatMap rustCharToLower

/-- Rust `char::is_whitespace`: the Unicode White_Space property
(complete list of White_Space code points). -/
def isRustWhitespace (c : Char) : Bool :=
  let n := c.toNat
  n == 0x20 || (0x9 ≤ n && n ≤ 0xD) || n == 0x85 || n == 0xA0 ||
  n == 0x1680 || (0x2000 ≤ n && n ≤ 0x200A) || n == 0x2028 || n == 0x2029 ||
  n == 0x202F || n == 0x205F || n == 0x3000

/-- Accumulator-based splitter behind `splitWhitespace`. -/
def splitWhitespaceAux : List Char → List Char → List (List Char)
  | [], acc => if acc.isEmpty then [] else [acc.reverse]
  | c :: rest, acc =>
    if isRustWhitespace c then
      if acc.isEmpty then splitWhitespaceAux rest []
      else acc.reverse :: splitWhitespaceAux rest []
    else splitWhitespaceAux rest (c :: acc)

/-- Rust `str::split_whitespace`: maximal runs of non-whitespace
characters, with no empty tokens. -/
def splitWhitespace (s : List Char) : List (List Char) :=
  splitWhitespaceAux s []

/-- Digit-folding core of `parseU64`; `none` on a non-digit or on
overflow past `u64::MAX`. -/
def parseU64Core (t : List Char) : Option Nat :=
  if t.isEmpty then none
  else
    t.foldl (fun acc c =>
      match acc with
      | none => none
      | some n =>
        if '0' ≤ c ∧ c ≤ '9' then
          let m := n * 10 + (c.toNat - 48)
          if m < 2 ^ 64 then some m else none
        else none) (some 0)

/-- Rust `str::parse::<u64>()` (via `.ok()`): an optional leading `+`,
then one or more ASCII digits, rejecting anything else and rejecting
values exceeding `u64::MAX`. -/
def parseU64 (s : List Char) : Option Nat :=
  match s with
  | '+' :: rest => parseU64Core rest
  | _ => parseU64Core s

/-- Rust `str::find` for a pattern, returning the BYTE index of the first
occurrence, scanning character positions left to right from byte offset
`idx`.  (For the ASCII pattern used here, byte-level search and
character-position search coincide: an ASCII byte in UTF-8 only ever
encodes a whole character.) -/
def findSubFrom (pat : List Char) : List Char → Nat → Option Nat
  | [], idx => if pat.isPrefixOf ([] : List Char) then some idx else none
  | c :: rest, idx =>
    if pat.isPrefixOf (c :: rest) then some idx
    else findSubFrom pat rest (idx + utf8CharLen c)

/-- Byte index of the first occurrence of `pat` in `hay` (Rust
`hay.find(pat)`). -/
def findSubByteIdx (hay pat : List Char) : Option Nat :=
  findSubFrom pat hay 0

/-- Rust byte slicing `&s[n..]`: `some` suffix when `n` is a character
boundary of `s` (including `n = byte length`), `none` when Rust would
panic (index inside a multi-byte character, or past the end). -/
def sliceFromByte : List Char → Nat → Option (List Char)
  | s, 0 => some s
  | [], _ + 1 => none
  | c :: s, n + 1 =>
    if utf8CharLen c ≤ n + 1 then sliceFromByte s (n + 1 - utf8CharLen c)
    else none

/-- The search pattern of azure.rs line 223. -/
def tryAgainPattern : List Char := "try again in ".data

/-- The retry-hint extraction of azure.rs lines 223-231 applied to the
rate-limit message: `some r` is the computed `retry_after` value (`0`
standing for "no usable hint", via `unwrap_or(0)`); `none` means the
slice `msg[secs..]` panics because the byte index found in the lowercased
copy is not a character boundary of the original message. -/
def extractRetryAfter (msg : List Char) : Option Nat :=
  match findSubByteIdx (rustToLower msg) tryAgainPattern with
  | none => some 0
  | some secs =>
    match sliceFromByte msg secs with
    | none => none
    | some tail =>
      some ((((splitWhitespace tail).get? 3).bind parseU64).getD 0)

/- ------------------------------------------------------------------
The dispatch loop, azure.rs lines 107-302.

The environment (token source, transport, response handler) is modelled
as a list of per-attempt outcomes consumed one per loop iteration; the
loop's observable actions are recorded as a trace of events.
------------------------------------------------------------------ -/

/-- Result of `handle_response_openai_compat(response).await` at azure.rs
line 203 (`Result<Value, ProviderError>`; the success `Value` is opaque
to the loop and modelled as a `Nat` identifier). -/
inductive HandleResult where
  | ok (v : Nat)
  | error (e : ProviderError)
deriving DecidableEq, Repr

/-- Outcome of one `request_builder.json(&payload).send().await` at
azure.rs line 182, as the loop classifies it: the transport succeeded and
the response handler produced `HandleResult`; the transport failed with
`e.is_timeout()`; or the transport failed otherwise (connect, DNS, ...),
carrying the error's display text. -/
inductive SendOutcome where
  | handled (r : HandleResult)
  | timeout
  | transportFailed (emsg : String)
deriving DecidableEq, Repr

/-- What the environment does on one loop iteration: the token fetch at
azure.rs line 123 fails with the given error text, or it yields a fresh
token and the subsequent send has the given outcome. -/
inductive AttemptEnv where
  | authFail (emsg : String)
  | authOk (token : String) (out : SendOutcome)
deriving DecidableEq, Repr

/-- Observable actions of the loop: a network send (carrying the request
URL, the value of `attempts` at that iteration, and the authentication
header set on the request) and a sleep of the given number of
milliseconds. -/
inductive Event where
  | send (url : String) (attempt : Nat) (header : String × String)
  | sleepMs (ms : Nat)
deriving DecidableEq, Repr

/-- How one call to `post` ends: `Ok(result)`; `Err(e)`; a panic inside
the retry-hint slice (see `extractRetryAfter`); or — a modelling artifact
only — the supplied environment list ran out before the loop ended. -/
inductive LoopOutcome where
  | ok (v : Nat)
  | err (e : ProviderError)
  | panicked
  | oracleExhausted
deriving DecidableEq, Repr

/-- The mutable locals of the loop, azure.rs lines 107-109:
`attempts = 0`, `last_error = None`,
`current_delay = DEFAULT_INITIAL_RETRY_INTERVAL_MS`. -/
structure LoopState where
  attempts : Nat
  last_error : Option ProviderError
  current_delay : Nat
deriving DecidableEq, Repr

/-- The loop-exit guard of azure.rs line 113:
`attempts > 0 && attempts > DEFAULT_MAX_RETRIES`. -/
def exceededRetries (st : LoopState) : Bool :=
  decide (0 < st.attempts) && decide (DEFAULT_MAX_RETRIES < st.attempts)

/-- The message formatted at azure.rs lines 114-117. -/
def exceededRetriesMsg : String :=
  "Exceeded maximum retry attempts (" ++ toString DEFAULT_MAX_RETRIES ++ ") for rate limiting"

/-- The error returned at azure.rs line 119:
`last_error.unwrap_or(ProviderError::RateLimitExceeded(error_msg))`. -/
def stopErr (st : LoopState) : ProviderError :=
  st.last_error.getD (.RateLimitExceeded exceededRetriesMsg)

/-- The delay decision and backoff update of azure.rs lines 233-248 for a
rate-limit failure, given the extracted `retry_after` and the current
backoff value: the returned pair is (delay to sleep in milliseconds, new
`current_delay`).  A positive hint is used verbatim
(`Duration::from_secs(retry_after)`, hence `* 1000` ms) and leaves
`current_delay` untouched; otherwise
`delay = current_delay.min(DEFAULT_MAX_RETRY_INTERVAL_MS)` and
`current_delay = (current_delay as f64 * DEFAULT_BACKOFF_MULTIPLIER) as u64`
with multiplier 2.0 — exact integer doubling for every value reachable
here (`current_delay ≤ 64000 < 2^53`). -/
def rateLimitDelayUpdate (retry_after : Nat) (current_delay : Nat) : Nat × Nat :=
  if 0 < retry_after then (retry_after * 1000, current_delay)
  else (min current_delay DEFAULT_MAX_RETRY_INTERVAL_MS, current_delay * 2)

/-- The retry loop of azure.rs lines 111-302, one environment entry per
iteration.  Each iteration: check the exit guard; fetch a token (a
failure maps to `RequestFailed("Failed to get authentication token: ...")`
and returns, line 123-126); build the request with `authHeader` and send;
then classify: success returns `Ok`; `RateLimitExceeded(msg)` increments
`attempts`, records `last_error`, extracts the hint, sleeps and loops
(lines 212-259); any other response error returns it (lines 260-269); a
transport timeout increments `attempts`, sleeps the backoff delay and
loops (lines 283-297); any other transport error returns `RequestFailed`
(line 299). -/
def postLoop (url : String) (cred : AzureCredentials) :
    LoopState → List AttemptEnv → List Event × LoopOutcome
  | st, [] =>
    if exceededRetries st then ([], .err (stopErr st))
    else ([], .oracleExhausted)
  | st, env :: rest =>
    if exceededRetries st then ([], .err (stopErr st))
    else
      match env with
      | .authFail emsg =>
        ([], .err (.RequestFailed ("Failed to get authentication token: " ++ emsg)))
      | .authOk token out =>
        match out with
        | .handled (.ok v) =>
          ([.send url st.attempts (authHeader cred token)], .ok v)
        | .handled (.error (.RateLimitExceeded msg)) =>
          match extractRetryAfter msg.data with
          | none => ([.send url st.attempts (authHeader cred token)], .panicked)
          | some retry_after =>
            let du := rateLimitDelayUpdate retry_after st.current_delay
            let next :=
              postLoop url cred
                ⟨st.attempts + 1, some (.RateLimitExceeded msg), du.2⟩ rest
            (.send url st.attempts (authHeader cred token) :: .sleepMs du.1 :: next.1,
              next.2)
        | .handled (.error e) =>
          ([.send url st.attempts (authHeader cred token)], .err e)
        | .timeout =>
          let next :=
            postLoop url cred
              ⟨st.attempts + 1, st.last_error, st.current_delay * 2⟩ rest
          (.send url st.attempts (authHeader cred token) ::
              .sleepMs (min st.current_delay DEFAULT_MAX_RETRY_INTERVAL_MS) :: next.1,
            next.2)
        | .transportFailed emsg =>
          ([.send url st.attempts (authHeader cred token)],
            .err (.RequestFailed ("Request failed: " ++ emsg)))

/- ------------------------------------------------------------------
URL construction, azure.rs lines 86-105, and the provider record.
------------------------------------------------------------------ -/

/-- Drop every trailing `/` from a character sequence. -/
def dropTrailingSlashes (l : List Char) : List Char :=
  (l.reverse.dropWhile (fun c => c == '/')).reverse

/-- Rust `path.trim_end_matches('/')` of azure.rs line 91. -/
def trimEndSlashes (s : String) : String :=
  String.mk (dropTrailingSlashes s.data)

/-- The `new_path` computation of azure.rs lines 91-104, taking the path
component of the parsed base URL (parsing itself is the external `url`
crate) and the deployment name. -/
def newPath (existingPathRaw deployment : String) : String :=
  let existing_path := trimEndSlashes existingPathRaw
  if existing_path = "" then
    ("/openai/deployments/" ++ deployment ++ "/chat/completions")
  else
    existing_path ++ "/openai/deployments/" ++ deployment ++ "/chat/completions"

/-- The query string set at azure.rs line 105. -/
def apiVersionQuery (api_version : String) : String :=
  "api-version=" ++ api_version

/-- The fields of `AzureProvider` (azure.rs lines 30-37) that `post`
reads: the credential variant of `auth`, the path component of the parsed
`endpoint`, the deployment name and the API version.  The HTTP client and
the token machinery are environment effects. -/
structure AzureProvider where
  credential : AzureCredentials
  endpointPath : String
  deployment_name : String
  api_version : String
deriving DecidableEq, Repr

/-- The request URL computed once at azure.rs lines 86-105, before the
loop (path and query; scheme and host come unchanged from the parsed
endpoint). -/
def buildUrl (p : AzureProvider) : String :=
  newPath p.endpointPath p.deployment_name ++ "?" ++ apiVersionQuery p.api_version

/-- The `post` entry point, azure.rs lines 86-303: compute the URL once,
initialise the loop state (lines 107-109) and run the loop. -/
def post (p : AzureProvider) (oracle : List AttemptEnv) : List Event × LoopOutcome :=
  postLoop (buildUrl p) p.credential
    ⟨0, none, DEFAULT_INITIAL_RETRY_INTERVAL_MS⟩ oracle

/- ------------------------------------------------------------------
Trace observations and environment classifications.
------------------------------------------------------------------ -/

/-- Whether an event is a network send. -/
def isSend : Event → Bool
  | .send _ _ _ => true
  | .sleepMs _ => false

/-- Number of network sends in a trace. -/
def sendCount (tr : List Event) : Nat :=
  (tr.filter isSend).length

/-- The sleep durations of a trace, in order. -/
def sleepsOf (tr : List Event) : List Nat :=
  tr.filterMap fun e =>
    match e with
    | .sleepMs d => some d
    | _ => none

/-- Number of sleeps in a trace. -/
def sleepCount (tr : List Event) : Nat :=
  (sleepsOf tr).length

/-- The `attempts` values carried by the send events of a trace. -/
def sendAttemptsOf (tr : List Event) : List Nat :=
  tr.filterMap fun e =>
    match e with
    | .send _ a _ => some a
    | _ => none

/-- The URLs carried by the send events of a trace. -/
def sendUrlsOf (tr : List Event) : List String :=
  tr.filterMap fun e =>
    match e with
    | .send u _ _ => some u
    | _ => none

/-- An environment entry the loop retries on: a rate-limit classification
whose hint extraction does not panic, or a transport timeout. -/
def retryableEnv : AttemptEnv → Bool
  | .authOk _ (.handled (.error (.RateLimitExceeded msg))) =>
    (extractRetryAfter msg.data).isSome
  | .authOk _ .timeout => true
  | _ => false

/-- A retryable environment entry that carries no usable server hint (the
extraction yields 0), so the exponential backoff path is taken. -/
def noHintRetryable : AttemptEnv → Bool
  | .authOk _ (.handled (.error (.RateLimitExceeded msg))) =>
    extractRetryAfter msg.data == some 0
  | .authOk _ .timeout => true
  | _ => false

/-- The `last_error` recording of one iteration (azure.rs line 214): a
rate-limit failure overwrites it, every other entry leaves it unchanged
(in particular, timeouts are NOT recorded, lines 283-297). -/
def recordErr (le : Option ProviderError) : AttemptEnv → Option ProviderError
  | .authOk _ (.handled (.error (.RateLimitExceeded msg))) =>
    some (.RateLimitExceeded msg)
  | _ => le

/-- The value of `last_error` after consuming the given entries, starting
from `init`. -/
def lastErrAcc (init : Option ProviderError) (l : List AttemptEnv) : Option ProviderError :=
  l.foldl recordErr init

/- ------------------------------------------------------------------
Basic lemmas about the trace observers and the loop guard.
------------------------------------------------------------------ -/

@[simp]
lemma sendCount_nil : sendCount [] = 0 := rfl

@[simp]
lemma sendCount_send_cons (u : String) (a : Nat) (h : String × String) (tr : List Event) :
    sendCount (.send u a h :: tr) = sendCount tr + 1 := by
  simp [sendCount, List.filter_cons, isSend]

@[simp]
lemma sendCount_sleep_cons (d : Nat) (tr : List Event) :
    sendCount (.sleepMs d :: tr) = sendCount tr := by
  simp [sendCount, List.filter_cons, isSend]

@[simp]
lemma sleepsOf_nil : sleepsOf [] = [] := rfl

@[simp]
lemma sleepsOf_send_cons (u : String) (a : Nat) (h : String × String) (tr : List Event) :
    sleepsOf (.send u a h :: tr) = sleepsOf tr := by
  simp [sleepsOf, List.filterMap_cons]

@[simp]
lemma sleepsOf_sleep_cons (d : Nat) (tr : List Event) :
    sleepsOf (.sleepMs d :: tr) = d :: sleepsOf tr := by
  simp [sleepsOf, List.filterMap_cons]

@[simp]
lemma sendAttemptsOf_nil : sendAttemptsOf [] = [] := rfl

@[simp]
lemma sendAttemptsOf_send_cons (u : String) (a : Nat) (h : String × String) (tr : List Event) :
    sendAttemptsOf (.send u a h :: tr) = a :: sendAttemptsOf tr := by
  simp [sendAttemptsOf, List.filterMap_cons]

@[simp]
lemma sendAttemptsOf_sleep_cons (d : Nat) (tr : List Event) :
    sendAttemptsOf (.sleepMs d :: tr) = sendAttemptsOf tr := by
  simp [sendAttemptsOf, List.filterMap_cons]

@[simp]
lemma sendUrlsOf_nil : sendUrlsOf [] = [] := rfl

@[simp]
lemma sendUrlsOf_send_cons (u : String) (a : Nat) (h : String × String) (tr : List Event) :
    sendUrlsOf (.send u a h :: tr) = u :: sendUrlsOf tr := by
  simp [sendUrlsOf, List.filterMap_cons]

@[simp]
lemma sendUrlsOf_sleep_cons (d : Nat) (tr : List Event) :
    sendUrlsOf (.sleepMs d :: tr) = sendUrlsOf tr := by
  simp [sendUrlsOf, List.filterMap_cons]

lemma exceededRetries_false_iff (st : LoopState) :
    exceededRetries st = false ↔ st.attempts ≤ DEFAULT_MAX_RETRIES := by
  simp [exceededRetries, DEFAULT_MAX_RETRIES]
  omega

lemma exceededRetries_true_iff (st : LoopState) :
    exceededRetries st = true ↔ DEFAULT_MAX_RETRIES < st.attempts := by
  simp [exceededRetries, DEFAULT_MAX_RETRIES]
  omega

/- ------------------------------------------------------------------
Unfolding lemmas for one iteration of the loop.
------------------------------------------------------------------ -/

lemma postLoop_stop (url : String) (cred : AzureCredentials) {st : LoopState}
    (hg : exceededRetries st = true) (oracle : List AttemptEnv) :
    postLoop url cred st oracle = ([], .err (stopErr st)) := by
  cases oracle <;> simp [postLoop, hg]

lemma postLoop_authFail (url : String) (cred : AzureCredentials) {st : LoopState}
    (hg : exceededRetries st = false) (emsg : String) (rest : List AttemptEnv) :
    postLoop url cred st (.authFail emsg :: rest)
      = ([], .err (.RequestFailed ("Failed to get authentication token: " ++ emsg))) := by
  simp [postLoop, hg]

lemma postLoop_success (url : String) (cred : AzureCredentials) {st : LoopState}
    (hg : exceededRetries st = false) (t : String) (v : Nat) (rest : List AttemptEnv) :
    postLoop url cred st (.authOk t (.handled (.ok v)) :: rest)
      = ([.send url st.attempts (authHeader cred t)], .ok v) := by
  simp [postLoop, hg]

lemma postLoop_requestFailedResp (url : String) (cred : AzureCredentials) {st : LoopState}
    (hg : exceededRetries st = false) (t m : String) (rest : List AttemptEnv) :
    postLoop url cred st (.authOk t (.handled (.error (.RequestFailed m))) :: rest)
      = ([.send url st.attempts (authHeader cred t)], .err (.RequestFailed m)) := by
  simp [postLoop, hg]

lemma postLoop_otherErrResp (url : String) (cred : AzureCredentials) {st : LoopState}
    (hg : exceededRetries st = false) (t m : String) (rest : List AttemptEnv) :
    postLoop url cred st (.authOk t (.handled (.error (.OtherError m))) :: rest)
      = ([.send url st.attempts (authHeader cred t)], .err (.OtherError m)) := by
  simp [postLoop, hg]

lemma postLoop_transport (url : String) (cred : AzureCredentials) {st : LoopState}
    (hg : exceededRetries st = false) (t m : String) (rest : List AttemptEnv) :
    postLoop url cred st (.authOk t (.transportFailed m) :: rest)
      = ([.send url st.attempts (authHeader cred t)],
          .err (.RequestFailed ("Request failed: " ++ m))) := by
  simp [postLoop, hg]

lemma postLoop_rlPanic (url : String) (cred : AzureCredentials) {st : LoopState}
    (hg : exceededRetries st = false) {msg : String}
    (he : extractRetryAfter msg.data = none) (t : String) (rest : List AttemptEnv) :
    postLoop url cred st (.authOk t (.handled (.error (.RateLimitExceeded msg))) :: rest)
      = ([.send url st.attempts (authHeader cred t)], .panicked) := by
  simp [postLoop, hg, he]

lemma postLoop_rl (url : String) (cred : AzureCredentials) {st : LoopState}
    (hg : exceededRetries st = false) {msg : String} {k : Nat}
    (he : extractRetryAfter msg.data = some k) (t : String) (rest : List AttemptEnv) :
    postLoop url cred st (.authOk t (.handled (.error (.RateLimitExceeded msg))) :: rest)
      = (.send url st.attempts (authHeader cred t) ::
          .sleepMs (rateLimitDelayUpdate k st.current_delay).1 ::
          (postLoop url cred
            ⟨st.attempts + 1, some (.RateLimitExceeded msg),
              (rateLimitDelayUpdate k st.current_delay).2⟩ rest).1,
        (postLoop url cred
          ⟨st.attempts + 1, some (.RateLimitExceeded msg),
            (rateLimitDelayUpdate k st.current_delay).2⟩ rest).2) := by
  simp [postLoop, hg, he]

lemma postLoop_timeout (url : String) (cred : AzureCredentials) {st : LoopState}
    (hg : exceededRetries st = false) (t : String) (rest : List AttemptEnv) :
    postLoop url cred st (.authOk t .timeout :: rest)
      = (.send url st.attempts (authHeader cred t) ::
          .sleepMs (min st.current_delay DEFAULT_MAX_RETRY_INTERVAL_MS) ::
          (postLoop url cred
            ⟨st.attempts + 1, st.last_error, st.current_delay * 2⟩ rest).1,
        (postLoop url cred
          ⟨st.attempts + 1, st.last_error, st.current_delay * 2⟩ rest).2) := by
  simp [postLoop, hg]

/- ------------------------------------------------------------------
Runs that exhaust the retry budget.
------------------------------------------------------------------ -/

/-- Master lemma: starting from a state whose `attempts` plus the length
of a block `pre` of consecutive retryable failures equals
`DEFAULT_MAX_RETRIES + 1`, the loop consumes exactly the block — one send
and one sleep per failure — and then returns the recorded error (or the
generic exhaustion error when nothing was recorded), with the final sleep
as the last trace event. -/
lemma postLoop_run_exhausts (pre : List AttemptEnv) :
    ∀ (url : String) (cred : AzureCredentials) (st : LoopState) (rest : List AttemptEnv),
      pre.all retryableEnv = true →
      st.attempts + pre.length = DEFAULT_MAX_RETRIES + 1 →
      (postLoop url cred st (pre ++ rest)).2
          = .err ((lastErrAcc st.last_error pre).getD (.RateLimitExceeded exceededRetriesMsg))
        ∧ sendCount (postLoop url cred st (pre ++ rest)).1 = pre.length
        ∧ sleepCount (postLoop url cred st (pre ++ rest)).1 = pre.length
        ∧ (pre = [] → (postLoop url cred st (pre ++ rest)).1 = [])
        ∧ (pre ≠ [] →
            ∃ tr d, (postLoop url cred st (pre ++ rest)).1 = tr ++ [Event.sleepMs d]) := by
  induction pre with
  | nil =>
    intro url cred st rest _ hlen
    have hg : exceededRetries st = true := by
      rw [exceededRetries_true_iff]
      simp only [List.length_nil, DEFAULT_MAX_RETRIES] at hlen ⊢
      omega
    rw [List.nil_append, postLoop_stop url cred hg]
    exact ⟨by simp [stopErr, lastErrAcc], rfl, rfl, fun _ => rfl, fun h => absurd rfl h⟩
  | cons e pre ih =>
    intro url cred st rest hall hlen
    rw [List.all_cons, Bool.and_eq_true] at hall
    obtain ⟨he, hpre⟩ := hall
    have hst : st.attempts ≤ DEFAULT_MAX_RETRIES := by
      simp only [List.length_cons, DEFAULT_MAX_RETRIES] at hlen ⊢
      omega
    have hg : exceededRetries st = false := (exceededRetries_false_iff st).mpr hst
    have hlen' : st.attempts + 1 + pre.length = DEFAULT_MAX_RETRIES + 1 := by
      simp only [List.length_cons, DEFAULT_MAX_RETRIES] at hlen ⊢
      omega
    cases e with
    | authFail m => simp [retryableEnv] at he
    | authOk t out =>
      cases out with
      | handled r =>
        cases r with
        | ok v => simp [retryableEnv] at he
        | error err =>
          cases err with
          | RequestFailed m => simp [retryableEnv] at he
          | OtherError m => simp [retryableEnv] at he
          | RateLimitExceeded msg =>
            simp only [retryableEnv, Option.isSome_iff_exists] at he
            obtain ⟨k, hk⟩ := he
            rw [List.cons_append, postLoop_rl url cred hg hk]
            obtain ⟨h1, h2, h3, h4, h5⟩ :=
              ih url cred
                ⟨st.attempts + 1, some (.RateLimitExceeded msg),
                  (rateLimitDelayUpdate k st.current_delay).2⟩ rest hpre hlen'
            refine ⟨?_, ?_, ?_, ?_, ?_⟩
            · simpa [lastErrAcc, recordErr] using h1
            · simp [h2]
            · simpa [sleepCount] using h3
            · intro h; exact absurd h (List.cons_ne_nil _ _)
            · intro _
              by_cases hp : pre = []
              · refine ⟨[.send url st.attempts (authHeader cred t)],
                  (rateLimitDelayUpdate k st.current_delay).1, ?_⟩
                simp [h4 hp]
              · obtain ⟨tr, d, htr⟩ := h5 hp
                exact ⟨.send url st.attempts (authHeader cred t) ::
                    .sleepMs (rateLimitDelayUpdate k st.current_delay).1 :: tr, d,
                  by simp [htr]⟩
      | timeout =>
        rw [List.cons_append, postLoop_timeout url cred hg]
        obtain ⟨h1, h2, h3, h4, h5⟩ :=
          ih url cred ⟨st.attempts + 1, st.last_error, st.current_delay * 2⟩ rest hpre hlen'
        refine ⟨?_, ?_, ?_, ?_, ?_⟩
        · simpa [lastErrAcc, recordErr] using h1
        · simp [h2]
        · simpa [sleepCount] using h3
        · intro h; exact absurd h (List.cons_ne_nil _ _)
        · intro _
          by_cases hp : pre = []
          · refine ⟨[.send url st.attempts (authHeader cred t)],
              min st.current_delay DEFAULT_MAX_RETRY_INTERVAL_MS, ?_⟩
            simp [h4 hp]
          · obtain ⟨tr, d, htr⟩ := h5 hp
            exact ⟨.send url st.attempts (authHeader cred t) ::
                .sleepMs (min st.current_delay DEFAULT_MAX_RETRY_INTERVAL_MS) :: tr, d,
              by simp [htr]⟩
      | transportFailed m => simp [retryableEnv] at he

/- ------------------------------------------------------------------
Invariants of arbitrary runs: send bound, attempt monotonicity, URL
constancy.
------------------------------------------------------------------ -/

/-- Every run of the loop sends at most `(DEFAULT_MAX_RETRIES + 1) -
attempts` more times, tags its sends with strictly increasing `attempts`
values all at least the starting value, and stamps every send with the
one URL the loop was given. -/
lemma postLoop_trace_invariants (oracle : List AttemptEnv) :
    ∀ (url : String) (cred : AzureCredentials) (st : LoopState),
      sendCount (postLoop url cred st oracle).1 ≤ (DEFAULT_MAX_RETRIES + 1) - st.attempts
      ∧ (∀ x ∈ sendAttemptsOf (postLoop url cred st oracle).1, st.attempts ≤ x)
      ∧ List.Chain' (· < ·) (sendAttemptsOf (postLoop url cred st oracle).1)
      ∧ (∀ u ∈ sendUrlsOf (postLoop url cred st oracle).1, u = url) := by
  induction oracle with
  | nil =>
    intro url cred st
    by_cases hg : exceededRetries st = true
    · rw [postLoop_stop url cred hg]
      simp
    · rw [Bool.not_eq_true] at hg
      simp [postLoop, hg]
  | cons env rest ih =>
    intro url cred st
    by_cases hg : exceededRetries st = true
    · rw [postLoop_stop url cred hg]
      simp
    · rw [Bool.not_eq_true] at hg
      have hst : st.attempts ≤ DEFAULT_MAX_RETRIES := (exceededRetries_false_iff st).mp hg
      have hterm : (1 : Nat) ≤ (DEFAULT_MAX_RETRIES + 1) - st.attempts := by
        simp only [DEFAULT_MAX_RETRIES] at hst ⊢
        omega
      cases env with
      | authFail m =>
        rw [postLoop_authFail url cred hg]
        simp
      | authOk t out =>
        cases out with
        | handled r =>
          cases r with
          | ok v =>
            rw [postLoop_success url cred hg]
            simp [hterm]
          | error err =>
            cases err with
            | RequestFailed m =>
              rw [postLoop_requestFailedResp url cred hg]
              simp [hterm]
            | OtherError m =>
              rw [postLoop_otherErrResp url cred hg]
              simp [hterm]
            | RateLimitExceeded msg =>
              rcases hex : extractRetryAfter msg.data with _ | k
              · rw [postLoop_rlPanic url cred hg hex]
                simp [hterm]
              · rw [postLoop_rl url cred hg hex]
                obtain ⟨ih1, ih2, ih3, ih4⟩ :=
                  ih url cred
                    ⟨st.attempts + 1, some (.RateLimitExceeded msg),
                      (rateLimitDelayUpdate k st.current_delay).2⟩
                refine ⟨?_, ?_, ?_, ?_⟩
                · simp only [DEFAULT_MAX_RETRIES] at ih1 hst ⊢
                  simp at ih1 ⊢
                  omega
                · intro x hx
                  simp at hx
                  rcases hx with rfl | hx
                  · exact le_refl _
                  · exact Nat.le_of_succ_le (ih2 x hx)
                · simp only [Prod.fst, sendAttemptsOf_send_cons, sendAttemptsOf_sleep_cons]
                  rw [List.chain'_cons']
                  refine ⟨fun b hb => ?_, ih3⟩
                  exact Nat.lt_of_succ_le (ih2 b (List.mem_of_mem_head? hb))
                · intro u hu
                  simp at hu
                  rcases hu with rfl | hu
                  · rfl
                  · exact ih4 u hu
        | timeout =>
          rw [postLoop_timeout url cred hg]
          obtain ⟨ih1, ih2, ih3, ih4⟩ :=
            ih url cred ⟨st.attempts + 1, st.last_error, st.current_delay * 2⟩
          refine ⟨?_, ?_, ?_, ?_⟩
          · simp only [DEFAULT_MAX_RETRIES] at ih1 hst ⊢
            simp at ih1 ⊢
            omega
          · intro x hx
            simp at hx
            rcases hx with rfl | hx
            · exact le_refl _
            · exact Nat.le_of_succ_le (ih2 x hx)
          · simp only [Prod.fst, sendAttemptsOf_send_cons, sendAttemptsOf_sleep_cons]
            rw [List.chain'_cons']
            refine ⟨fun b hb => ?_, ih3⟩
            exact Nat.lt_of_succ_le (ih2 b (List.mem_of_mem_head? hb))
          · intro u hu
            simp at hu
            rcases hu with rfl | hu
            · rfl
            · exact ih4 u hu
        | transportFailed m =>
          rw [postLoop_transport url cred hg]
          simp [hterm]

/- ------------------------------------------------------------------
The exponential backoff schedule on hint-free retryable failures.
------------------------------------------------------------------ -/

/-- Over a block of consecutive retryable failures without a usable
server hint, starting from backoff value `current_delay`, the successive
sleeps are `min (current_delay * 2 ^ i) DEFAULT_MAX_RETRY_INTERVAL_MS`. -/
lemma postLoop_noHint_sleeps (pre : List AttemptEnv) :
    ∀ (url : String) (cred : AzureCredentials) (st : LoopState) (rest : List AttemptEnv),
      pre.all noHintRetryable = true →
      st.attempts + pre.length ≤ DEFAULT_MAX_RETRIES + 1 →
      (sleepsOf (postLoop url cred st (pre ++ rest)).1).take pre.length
        = (List.range pre.length).map
            (fun i => min (st.current_delay * 2 ^ i) DEFAULT_MAX_RETRY_INTERVAL_MS) := by
  induction pre with
  | nil =>
    intro url cred st rest _ _
    simp
  | cons e pre ih =>
    intro url cred st rest hall hlen
    rw [List.all_cons, Bool.and_eq_true] at hall
    obtain ⟨he, hpre⟩ := hall
    have hst : st.attempts ≤ DEFAULT_MAX_RETRIES := by
      simp only [List.length_cons, DEFAULT_MAX_RETRIES] at hlen ⊢
      omega
    have hg : exceededRetries st = false := (exceededRetries_false_iff st).mpr hst
    have hlen' : st.attempts + 1 + pre.length ≤ DEFAULT_MAX_RETRIES + 1 := by
      simp only [List.length_cons, DEFAULT_MAX_RETRIES] at hlen ⊢
      omega
    have hcomp :
        ((fun i => min (st.current_delay * 2 ^ i) DEFAULT_MAX_RETRY_INTERVAL_MS) ∘ Nat.succ)
          = fun i => min (st.current_delay * 2 * 2 ^ i) DEFAULT_MAX_RETRY_INTERVAL_MS := by
      funext i
      simp only [Function.comp]
      congr 1
      rw [pow_succ]
      ring
    cases e with
    | authFail m => simp [noHintRetryable] at he
    | authOk t out =>
      cases out with
      | handled r =>
        cases r with
        | ok v => simp [noHintRetryable] at he
        | error err =>
          cases err with
          | RequestFailed m => simp [noHintRetryable] at he
          | OtherError m => simp [noHintRetryable] at he
          | RateLimitExceeded msg =>
            have hex : extractRetryAfter msg.data = some 0 := by
              simpa [noHintRetryable] using he
            have hdu : rateLimitDelayUpdate 0 st.current_delay
                = (min st.current_delay DEFAULT_MAX_RETRY_INTERVAL_MS,
                    st.current_delay * 2) := by
              simp [rateLimitDelayUpdate]
            rw [List.cons_append, postLoop_rl url cred hg hex, hdu]
            simp only [Prod.fst, Prod.snd, sleepsOf_send_cons, sleepsOf_sleep_cons,
              List.length_cons, List.take_succ_cons]
            rw [List.range_succ_eq_map, List.map_cons, List.map_map, hcomp,
              ih url cred ⟨st.attempts + 1, some (.RateLimitExceeded msg),
                st.current_delay * 2⟩ rest hpre hlen']
            simp
      | timeout =>
        rw [List.cons_append, postLoop_timeout url cred hg]
        simp only [Prod.fst, Prod.snd, sleepsOf_send_cons, sleepsOf_sleep_cons,
          List.length_cons, List.take_succ_cons]
        rw [List.range_succ_eq_map, List.map_cons, List.map_map, hcomp,
          ih url cred ⟨st.attempts + 1, st.last_error,
            st.current_delay * 2⟩ rest hpre hlen']
        simp
      | transportFailed m => simp [noHintRetryable] at he

/- ------------------------------------------------------------------
String lemmas for the URL construction.
------------------------------------------------------------------ -/

lemma str_append_data (a b : String) : a ++ b = String.mk (a.data ++ b.data) := by
  cases a
  cases b
  rfl

lemma trimEndSlashes_append_slash (p : String) :
    trimEndSlashes (p ++ "/") = trimEndSlashes p := by
  unfold trimEndSlashes dropTrailingSlashes
  rw [str_append_data]
  simp [List.dropWhile_cons]

lemma newPath_eq (p d : String) :
    newPath p d = trimEndSlashes p ++ "/openai/deployments/" ++ d ++ "/chat/completions" := by
  unfold newPath
  by_cases h : trimEndSlashes p = ""
  · rw [if_pos h, h]
    simp [str_append_data]
  · rw [if_neg h]

/- ------------------------------------------------------------------
The claims.
------------------------------------------------------------------ -/

/-- C1, counterexample: after five consecutive retryable failures the
dispatcher does NOT stop — a sixth network send still happens (here it
succeeds), because the exit guard `attempts > 0 && attempts >
DEFAULT_MAX_RETRIES` only fires once `attempts` reaches six. -/
theorem post_sends_a_sixth_time_after_five_retryable_failures :
    sendCount (post ⟨.DefaultCredential, "/base", "dep", "v1"⟩
        (List.replicate 5 (.authOk ("tok") .timeout) ++ [.authOk ("tok") (.handled (.ok 42))])).1
        = 6
      ∧ (post ⟨.DefaultCredential, "/base", "dep", "v1"⟩
          (List.replicate 5 (.authOk ("tok") .timeout) ++ [.authOk ("tok") (.handled (.ok 42))])).2
        = .ok 42 := by
  constructor
  · decide
  · decide

/-- C1 (amended): after `max_retries + 1` (six) consecutive retryable
failures — the initial send plus `max_retries` retries all failing — the
call returns an error and performs no network send beyond those six. -/
theorem post_returns_error_after_six_retryable_failures
    (p : AzureProvider) (pre rest : List AttemptEnv)
    (hlen : pre.length = DEFAULT_MAX_RETRIES + 1)
    (hall : pre.all retryableEnv = true) :
    (∃ e, (post p (pre ++ rest)).2 = .err e)
      ∧ sendCount (post p (pre ++ rest)).1 = DEFAULT_MAX_RETRIES + 1 := by
  obtain ⟨h1, h2, _, _, _⟩ :=
    postLoop_run_exhausts pre (buildUrl p) p.credential
      ⟨0, none, DEFAULT_INITIAL_RETRY_INTERVAL_MS⟩ rest hall (by simp [hlen])
  exact ⟨⟨_, h1⟩, by rw [post]; rw [h2, hlen]⟩

/-- C1, witness: six consecutive timeouts exhaust the budget with exactly
six sends and an error result. -/
theorem post_returns_error_after_six_retryable_failures_witness :
    (List.replicate 6 (AttemptEnv.authOk ("tok") .timeout)).length = DEFAULT_MAX_RETRIES + 1
      ∧ (List.replicate 6 (AttemptEnv.authOk ("tok") .timeout)).all retryableEnv = true
      ∧ ((∃ e, (post ⟨.DefaultCredential, "/base", "dep", "v1"⟩
              (List.replicate 6 (AttemptEnv.authOk ("tok") .timeout) ++ [])).2 = .err e)
          ∧ sendCount (post ⟨.DefaultCredential, "/base", "dep", "v1"⟩
              (List.replicate 6 (AttemptEnv.authOk ("tok") .timeout) ++ [])).1
            = DEFAULT_MAX_RETRIES + 1) :=
  ⟨by decide, by decide,
    post_returns_error_after_six_retryable_failures
      ⟨.DefaultCredential, "/base", "dep", "v1"⟩
      (List.replicate 6 (AttemptEnv.authOk ("tok") .timeout)) []
      (by decide) (by decide)⟩

/-- C2 (confirmed): within one call to `post` the attempt counter is
strictly increasing across the loop iterations that send, and the total
number of network sends is bounded by `max_retries + 1` (six). -/
theorem post_send_budget_and_attempt_monotonicity
    (p : AzureProvider) (oracle : List AttemptEnv) :
    sendCount (post p oracle).1 ≤ DEFAULT_MAX_RETRIES + 1
      ∧ List.Chain' (· < ·) (sendAttemptsOf (post p oracle).1) := by
  obtain ⟨h1, _, h3, _⟩ :=
    postLoop_trace_invariants oracle (buildUrl p) p.credential
      ⟨0, none, DEFAULT_INITIAL_RETRY_INTERVAL_MS⟩
  exact ⟨by simpa using h1, h3⟩

/-- C3 (confirmed): over consecutive retryable failures without a server
hint, the k-th scheduled delay (0-indexed i = k-1) is exactly
`min (1000 * 2 ^ i) 32000` milliseconds, and no such delay exceeds the
32000 ms cap. -/
theorem post_backoff_schedule_doubles_to_cap
    (p : AzureProvider) (pre rest : List AttemptEnv)
    (hall : pre.all noHintRetryable = true)
    (hlen : pre.length ≤ DEFAULT_MAX_RETRIES + 1) :
    (sleepsOf (post p (pre ++ rest)).1).take pre.length
        = (List.range pre.length).map
            (fun i => min (DEFAULT_INITIAL_RETRY_INTERVAL_MS * 2 ^ i)
              DEFAULT_MAX_RETRY_INTERVAL_MS)
      ∧ ∀ d ∈ (sleepsOf (post p (pre ++ rest)).1).take pre.length,
          d ≤ DEFAULT_MAX_RETRY_INTERVAL_MS := by
  have heq :=
    postLoop_noHint_sleeps pre (buildUrl p) p.credential
      ⟨0, none, DEFAULT_INITIAL_RETRY_INTERVAL_MS⟩ rest hall (by simpa using hlen)
  refine ⟨heq, ?_⟩
  intro d hd
  rw [post, heq] at hd
  simp only [List.mem_map] at hd
  obtain ⟨i, _, rfl⟩ := hd
  exact min_le_right _ _

/-- C3, witness: six hint-free failures produce exactly the delays
1000, 2000, 4000, 8000, 16000, 32000 ms. -/
theorem post_backoff_schedule_doubles_to_cap_witness :
    (List.replicate 6 (AttemptEnv.authOk ("tok") .timeout)).all noHintRetryable = true
      ∧ (List.replicate 6 (AttemptEnv.authOk ("tok") .timeout)).length ≤ DEFAULT_MAX_RETRIES + 1
      ∧ sleepsOf (post ⟨.DefaultCredential, "/base", "dep", "v1"⟩
            (List.replicate 6 (AttemptEnv.authOk ("tok") .timeout))).1
          = [1000, 2000, 4000, 8000, 16000, 32000]
      ∧ ((sleepsOf (post ⟨.DefaultCredential, "/base", "dep", "v1"⟩
              (List.replicate 6 (AttemptEnv.authOk ("tok") .timeout) ++ [])).1).take
            (List.replicate 6 (AttemptEnv.authOk ("tok") .timeout)).length
            = (List.range (List.replicate 6 (AttemptEnv.authOk ("tok") .timeout)).length).map
                (fun i => min (DEFAULT_INITIAL_RETRY_INTERVAL_MS * 2 ^ i)
                  DEFAULT_MAX_RETRY_INTERVAL_MS)
          ∧ ∀ d ∈ (sleepsOf (post ⟨.DefaultCredential, "/base", "dep", "v1"⟩
                (List.replicate 6 (AttemptEnv.authOk ("tok") .timeout) ++ [])).1).take
                (List.replicate 6 (AttemptEnv.authOk ("tok") .timeout)).length,
              d ≤ DEFAULT_MAX_RETRY_INTERVAL_MS) :=
  ⟨by decide, by decide, by decide,
    post_backoff_schedule_doubles_to_cap
      ⟨.DefaultCredential, "/base", "dep", "v1"⟩
      (List.replicate 6 (AttemptEnv.authOk ("tok") .timeout)) []
      (by decide) (by decide)⟩

/-- C4, counterexample: a rate-limit message that literally carries a
retry hint of 0 seconds ("try again in 0 seconds") is treated as having
no hint — the next delay is the 1000 ms backoff value (not 0 seconds) and
the exponential counter advances (the following delay is 2000 ms). -/
theorem post_zero_second_hint_falls_back_to_backoff :
    extractRetryAfter ("try again in 0 seconds".data) = some 0
      ∧ postLoop ("u") .DefaultCredential ⟨0, none, DEFAULT_INITIAL_RETRY_INTERVAL_MS⟩
          [.authOk ("tok") (.handled (.error (.RateLimitExceeded ("try again in 0 seconds")))),
            .authOk ("tok") (.handled (.error (.RateLimitExceeded ("try again in 0 seconds"))))]
        = ([.send ("u") 0 ("Authorization", "Bearer tok"), .sleepMs 1000,
            .send ("u") 1 ("Authorization", "Bearer tok"), .sleepMs 2000],
          .oracleExhausted) := by
  constructor
  · decide
  · decide

/-- C4 (amended): for a rate-limit failure whose extracted hint is N
seconds with N ≥ 1, and any backoff state, the scheduled delay is exactly
N seconds (N * 1000 ms) and `current_delay` is passed to the next
iteration unchanged; a hint of 0 is treated as absent. -/
theorem postLoop_positive_hint_used_verbatim
    (url : String) (cred : AzureCredentials) (st : LoopState) (t msg : String)
    (rest : List AttemptEnv) (N : Nat)
    (hN : extractRetryAfter msg.data = some N) (hpos : 0 < N)
    (hg : exceededRetries st = false) :
    postLoop url cred st (.authOk t (.handled (.error (.RateLimitExceeded msg))) :: rest)
      = (.send url st.attempts (authHeader cred t) :: .sleepMs (N * 1000) ::
          (postLoop url cred
            ⟨st.attempts + 1, some (.RateLimitExceeded msg), st.current_delay⟩ rest).1,
        (postLoop url cred
          ⟨st.attempts + 1, some (.RateLimitExceeded msg), st.current_delay⟩ rest).2) := by
  rw [postLoop_rl url cred hg hN]
  simp [rateLimitDelayUpdate, hpos]

/-- C4, witness: a hint of 7 seconds produces a 7000 ms sleep and leaves
the 4000 ms backoff value untouched, from an arbitrary mid-call state. -/
theorem postLoop_positive_hint_used_verbatim_witness :
    extractRetryAfter ("please try again in 7 seconds".data) = some 7
      ∧ (0 : Nat) < 7
      ∧ exceededRetries ⟨2, none, 4000⟩ = false
      ∧ postLoop ("u") .DefaultCredential ⟨2, none, 4000⟩
          [.authOk ("tok") (.handled (.error (.RateLimitExceeded ("please try again in 7 seconds"))))]
        = ([.send ("u") 2 ("Authorization", "Bearer tok"), .sleepMs 7000], .oracleExhausted) := by
  refine ⟨by decide, by decide, by decide, ?_⟩
  rw [postLoop_positive_hint_used_verbatim ("u") .DefaultCredential ⟨2, none, 4000⟩ ("tok")
    ("please try again in 7 seconds") [] 7 (by decide) (by decide) (by decide)]
  decide

/-- C5, counterexample: six consecutive timeouts exhaust the budget, yet
the returned error is the generic "Exceeded maximum retry attempts (5)
for rate limiting" message — the concrete timeout errors that were
observed are never recorded in `last_error`. -/
theorem post_timeout_exhaustion_returns_generic_message :
    (post ⟨.DefaultCredential, "/base", "dep", "v1"⟩
        (List.replicate 6 (.authOk ("tok") .timeout))).2
      = .err (.RateLimitExceeded ("Exceeded maximum retry attempts (5) for rate limiting")) := by
  decide

/-- C5 (amended): on exhaustion the error returned is the most recently
observed RATE-LIMIT error; timeout failures are never recorded, so the
generic retries-exhausted message is returned exactly when no rate-limit
error occurred during the call, even if concrete timeout errors did. -/
theorem post_exhaustion_error_is_last_recorded_rate_limit
    (p : AzureProvider) (pre rest : List AttemptEnv)
    (hlen : pre.length = DEFAULT_MAX_RETRIES + 1)
    (hall : pre.all retryableEnv = true) :
    (post p (pre ++ rest)).2
      = .err ((lastErrAcc none pre).getD (.RateLimitExceeded exceededRetriesMsg)) := by
  obtain ⟨h1, _, _, _, _⟩ :=
    postLoop_run_exhausts pre (buildUrl p) p.credential
      ⟨0, none, DEFAULT_INITIAL_RETRY_INTERVAL_MS⟩ rest hall (by simp [hlen])
  exact h1

/-- C5, witness: five timeouts followed by a rate-limit failure return
that rate-limit error (the last recorded one), not the generic message. -/
theorem post_exhaustion_error_is_last_recorded_rate_limit_witness :
    (List.replicate 5 (AttemptEnv.authOk ("tok") .timeout)
        ++ [AttemptEnv.authOk ("tok") (.handled (.error (.RateLimitExceeded ("slow down"))))]).length
        = DEFAULT_MAX_RETRIES + 1
      ∧ (List.replicate 5 (AttemptEnv.authOk ("tok") .timeout)
          ++ [AttemptEnv.authOk ("tok")
              (.handled (.error (.RateLimitExceeded ("slow down"))))]).all retryableEnv = true
      ∧ (post ⟨.DefaultCredential, "/base", "dep", "v1"⟩
            ((List.replicate 5 (AttemptEnv.authOk ("tok") .timeout)
              ++ [AttemptEnv.authOk ("tok")
                  (.handled (.error (.RateLimitExceeded ("slow down"))))]) ++ [])).2
          = .err (.RateLimitExceeded ("slow down")) :=
  ⟨by decide, by decide,
    (post_exhaustion_error_is_last_recorded_rate_limit
        ⟨.DefaultCredential, "/base", "dep", "v1"⟩
        (List.replicate 5 (AttemptEnv.authOk ("tok") .timeout)
          ++ [AttemptEnv.authOk ("tok") (.handled (.error (.RateLimitExceeded ("slow down"))))]) []
        (by decide) (by decide)).trans (by decide)⟩

/-- C6 (confirmed): on any attempt, including retry attempts (any state
the loop can be in), a token-fetch failure returns immediately with the
terminal authentication error: the trace is empty — no send, no sleep —
and the failure is not counted against the retry budget. -/
theorem postLoop_auth_failure_short_circuits
    (url : String) (cred : AzureCredentials) (st : LoopState) (m : String)
    (rest : List AttemptEnv) (hg : exceededRetries st = false) :
    postLoop url cred st (.authFail m :: rest)
        = ([], .err (.RequestFailed ("Failed to get authentication token: " ++ m)))
      ∧ sendCount (postLoop url cred st (.authFail m :: rest)).1 = 0
      ∧ sleepsOf (postLoop url cred st (.authFail m :: rest)).1 = [] := by
  have h := postLoop_authFail url cred hg m rest
  exact ⟨h, by rw [h]; rfl, by rw [h]; rfl⟩

/-- C6, witness: a token-fetch failure on the fourth attempt (a retry
attempt) short-circuits with no send and no sleep. -/
theorem postLoop_auth_failure_short_circuits_witness :
    exceededRetries ⟨3, none, 8000⟩ = false
      ∧ (postLoop ("u") .DefaultCredential ⟨3, none, 8000⟩
            [.authFail ("credential expired"), .authOk ("tok") .timeout]
          = ([], .err (.RequestFailed
              ("Failed to get authentication token: " ++ "credential expired")))
        ∧ sendCount (postLoop ("u") .DefaultCredential ⟨3, none, 8000⟩
            [.authFail ("credential expired"), .authOk ("tok") .timeout]).1 = 0
        ∧ sleepsOf (postLoop ("u") .DefaultCredential ⟨3, none, 8000⟩
            [.authFail ("credential expired"), .authOk ("tok") .timeout]).1 = []) :=
  ⟨by decide,
    postLoop_auth_failure_short_circuits ("u") .DefaultCredential ⟨3, none, 8000⟩
      ("credential expired") [.authOk ("tok") .timeout] (by decide)⟩

/-- C7 (confirmed): the authentication header is selected by an
exhaustive match on the credential variant — API-key mode sets
`api-key: token`, default-credential mode sets
`Authorization: Bearer token` — and every request gets exactly one of
the two headers (the selected header name is always one of the two, and
the two names differ). -/
theorem authHeader_selection_exhaustive :
    (∀ k tok, authHeader (.ApiKey k) tok = ("api-key", tok))
      ∧ (∀ tok, authHeader .DefaultCredential tok = ("Authorization", "Bearer " ++ tok))
      ∧ (∀ cred tok, (authHeader cred tok).1 = "api-key"
          ∨ (authHeader cred tok).1 = "Authorization")
      ∧ (("api-key" == ("Authorization" : String)) = false) := by
  refine ⟨fun k tok => rfl, fun tok => rfl, fun cred tok => ?_, by decide⟩
  cases cred
  · exact Or.inl rfl
  · exact Or.inr rfl

/-- C8 (confirmed): the URL-building step yields the same result whether
or not the configured base path carries trailing slashes, the built path
is `{trimmed base}/openai/deployments/{deployment}/chat/completions` with
query `api-version={version}`, and every send of a call carries the one
URL computed before the loop. -/
theorem post_url_built_once_and_slash_invariant
    (p : AzureProvider) (path d : String) (oracle : List AttemptEnv) :
    newPath (path ++ "/") d = newPath path d
      ∧ newPath path d
        = trimEndSlashes path ++ "/openai/deployments/" ++ d ++ "/chat/completions"
      ∧ buildUrl { p with endpointPath := p.endpointPath ++ "/" } = buildUrl p
      ∧ buildUrl p
        = newPath p.endpointPath p.deployment_name ++ "?"
            ++ apiVersionQuery p.api_version
      ∧ ((sendUrlsOf (post p oracle).1).all (fun u => u == buildUrl p)) = true := by
  refine ⟨?_, newPath_eq path d, ?_, rfl, ?_⟩
  · rw [newPath_eq, newPath_eq, trimEndSlashes_append_slash]
  · simp only [buildUrl, newPath_eq, trimEndSlashes_append_slash]
  · rw [List.all_eq_true]
    intro u hu
    obtain ⟨_, _, _, h4⟩ :=
      postLoop_trace_invariants oracle (buildUrl p) p.credential
        ⟨0, none, DEFAULT_INITIAL_RETRY_INTERVAL_MS⟩
    exact beq_iff_eq.mpr (h4 u hu)

/-- C9: the retry-hint extraction is NOT panic-free.  For the message
starting with U+212A KELVIN SIGN (3 UTF-8 bytes, whose Rust lowercase is
the 1-byte `k`), `to_lowercase().find("try again in ")` yields byte index
1 of the lowercased copy, which falls inside the 3-byte first character
of the original message, so the slice `msg[secs..]` panics. -/
theorem extractRetryAfter_panics_on_kelvin_sign_message :
    findSubByteIdx (rustToLower (Char.ofNat 0x212A :: "try again in 5 seconds".data))
        tryAgainPattern = some 1
      ∧ sliceFromByte (Char.ofNat 0x212A :: "try again in 5 seconds".data) 1 = none
      ∧ extractRetryAfter (Char.ofNat 0x212A :: "try again in 5 seconds".data) = none := by
  refine ⟨?_, ?_, ?_⟩
  · decide
  · decide
  · decide

/-- C10 (confirmed): when the retry budget is exhausted by consecutive
retryable failures, the loop still sleeps the full computed backoff after
the final failed attempt — one sleep per failure, six in total — and the
trace ends with that sleep: the error return only happens from a
post-sleep state. -/
theorem post_sleeps_before_exhaustion_return
    (p : AzureProvider) (pre rest : List AttemptEnv)
    (hlen : pre.length = DEFAULT_MAX_RETRIES + 1)
    (hall : pre.all retryableEnv = true) :
    sleepCount (post p (pre ++ rest)).1 = DEFAULT_MAX_RETRIES + 1
      ∧ (∃ tr d, (post p (pre ++ rest)).1 = tr ++ [Event.sleepMs d])
      ∧ (∃ e, (post p (pre ++ rest)).2 = .err e) := by
  obtain ⟨h1, _, h3, _, h5⟩ :=
    postLoop_run_exhausts pre (buildUrl p) p.credential
      ⟨0, none, DEFAULT_INITIAL_RETRY_INTERVAL_MS⟩ rest hall (by simp [hlen])
  have hne : pre ≠ [] := by
    intro h
    rw [h] at hlen
    simp [DEFAULT_MAX_RETRIES] at hlen
  exact ⟨by rw [post]; rw [h3, hlen], h5 hne, ⟨_, h1⟩⟩

/-- C10, witness: six rate-limit failures sleep six times, the last trace
event is the final 32000 ms sleep, and the result is an error. -/
theorem post_sleeps_before_exhaustion_return_witness :
    (List.replicate 6 (AttemptEnv.authOk ("tok")
          (.handled (.error (.RateLimitExceeded ("rate limited")))))).length
        = DEFAULT_MAX_RETRIES + 1
      ∧ (List.replicate 6 (AttemptEnv.authOk ("tok")
          (.handled (.error (.RateLimitExceeded ("rate limited")))))).all retryableEnv = true
      ∧ (sleepCount (post ⟨.DefaultCredential, "/base", "dep", "v1"⟩
            (List.replicate 6 (AttemptEnv.authOk ("tok")
              (.handled (.error (.RateLimitExceeded ("rate limited"))))) ++ [])).1
          = DEFAULT_MAX_RETRIES + 1
        ∧ (∃ tr d, (post ⟨.DefaultCredential, "/base", "dep", "v1"⟩
            (List.replicate 6 (AttemptEnv.authOk ("tok")
              (.handled (.error (.RateLimitExceeded ("rate limited"))))) ++ [])).1
            = tr ++ [Event.sleepMs d])
        ∧ (∃ e, (post ⟨.DefaultCredential, "/base", "dep", "v1"⟩
            (List.replicate 6 (AttemptEnv.authOk ("tok")
              (.handled (.error (.RateLimitExceeded ("rate limited"))))) ++ [])).2
            = .err e)) :=
  ⟨by decide, by decide,
    post_sleeps_before_exhaustion_return
      ⟨.DefaultCredential, "/base", "dep", "v1"⟩
      (List.replicate 6 (AttemptEnv.authOk ("tok")
        (.handled (.error (.RateLimitExceeded ("rate limited")))))) []
      (by decide) (by decide)⟩
